import Mathlib

/-!
Shallow embedding of the core of the `pii-detection-system` repository
(`src/services/PIIDetectionService.ts`), covering:

* the response normalizer `parseDetectionResult` (source lines 319-355),
* the credential pool operations `rotateAPIKey` (lines 61-73) and
  `findAvailableKey` (lines 75-93),
* the dispatcher `callGeminiWithRetry` (lines 167-213),
* the telemetry view `getUsageStats` (lines 419-426).

Modelling conventions:

* JavaScript runtime values flowing out of `JSON.parse` are modelled by the
  inductive type `Json`; numbers are modelled as `Int` (every value the
  claims touch is integral).
* `JSON.parse` itself (together with the fence-stripping / trimming of
  source lines 321-324) is an external runtime primitive, not repository
  code; the normalizer is therefore parameterized by the parse outcome
  `parsed? : Option Json`, where `none` models a thrown parse error and
  `some v` models a successful parse of the cleaned text yielding `v`.
  Property access on the JavaScript value `null` throws a TypeError inside
  the same `try` block, so `some Json.null` also lands in the `catch`
  branch, exactly as in the source.
* Wall-clock instants (`Date.now()`, `new Date().toISOString()`) are
  modelled as a `Nat` clock value threaded explicitly; `sleep` advances the
  clock by the slept amount.
* The Gemini network client (`initializeClient`, `this.model`) is external;
  reinitializing it has no observable effect on the modelled state.  The
  outcome of each upstream call is supplied by a script `List Outcome`.
-/

namespace PII

/-- JavaScript values as produced by `JSON.parse` (numbers restricted to
integers, which covers every value the specification mentions). -/
inductive Json where
  | null : Json
  | bool (b : Bool) : Json
  | num (n : Int) : Json
  | str (s : String) : Json
  | arr (elems : List Json) : Json
  | obj (fields : List (String × Json)) : Json

/-- List-level test that `pat` occurs at the head of `l`. -/
def listStartsWith : List Char → List Char → Bool
  | [], _ => true
  | _ :: _, [] => false
  | c :: cs, d :: ds => c == d && listStartsWith cs ds

/-- List-level substring search: does `sub` occur contiguously in `l`? -/
def listContainsSub (sub : List Char) : List Char → Bool
  | [] => listStartsWith sub []
  | d :: ds => listStartsWith sub (d :: ds) || listContainsSub sub ds

/-- JavaScript `s.includes(sub)`: contiguous substring containment. -/
def jsIncludes (s sub : String) : Bool :=
  listContainsSub sub.data s.data

/-- JavaScript `s.toLowerCase()` (ASCII-faithful character map). -/
def jsToLower (s : String) : String :=
  ⟨s.data.map Char.toLower⟩

/-- Field lookup in a JavaScript object literal (first binding wins). -/
def lookupField : List (String × Json) → String → Option Json
  | [], _ => none
  | (k, v) :: rest, key => if k == key then some v else lookupField rest key

/-- JavaScript property access `v.key`: `none` models `undefined`.
Accessing a property of a primitive or an array yields `undefined` for the
field names used by the service (`Json.null` never reaches this function:
the caller routes it to the catch branch, since `null.key` throws). -/
def Json.getField : Json → String → Option Json
  | .obj fields, key => lookupField fields key
  | _, _ => none

/-- JavaScript truthiness of a `Json` value. -/
def Json.truthy : Json → Bool
  | .null => false
  | .bool b => b
  | .num n => n != 0
  | .str s => s != ""
  | .arr _ => true
  | .obj _ => true

/-- JavaScript `v || dflt` applied to a possibly-`undefined` value:
returns `v` when it is present and truthy, the default otherwise. -/
def jsOr (v : Option Json) (dflt : Json) : Json :=
  match v with
  | some j => if j.truthy then j else dflt
  | none => dflt

/-- The record returned by `parseDetectionResult` (source lines 328-335 and
346-353).  Field values are `Json` because the source copies whatever
`JSON.parse` produced; `imageContainsText` is copied without defaulting, so
it may be `undefined` (`none`); `rawResponse` is set only in the catch
branch. -/
structure DetectionResult where
  hasPII : Json
  confidence : Json
  detectedItems : Json
  reasoning : Json
  riskLevel : Json
  imageContainsText : Option Json
  rawResponse : Option String

/-- Source lines 340-344: the fallback scans the lowercased ORIGINAL
response text for the four fixed trigger substrings. -/
def hasPIIIndicators (responseText : String) : Bool :=
  jsIncludes (jsToLower responseText) "detected" ||
  jsIncludes (jsToLower responseText) "found" ||
  jsIncludes (jsToLower responseText) "phone" ||
  jsIncludes (jsToLower responseText) "email"

/-- Source lines 346-353: the conservative fallback result built in the
catch branch. -/
def fallbackResult (responseText : String) : DetectionResult :=
  { hasPII := .bool (hasPIIIndicators responseText)
    confidence := .num 50
    detectedItems := .arr []
    reasoning := .str "Failed to parse response, flagging as potential PII"
    riskLevel := .str "medium"
    imageContainsText := none
    rawResponse := some responseText }

/-- Source lines 319-355.  `parsed?` is the outcome of
`JSON.parse(cleanedText)`: `none` when the parse throws.  A parse result of
`null` throws a TypeError at the first property access (line 329), which
the same catch branch swallows, so it is routed to the fallback as well.
Every other parse result reaches the field-by-field extraction with
JavaScript `||` defaulting (lines 328-335). -/
def parseDetectionResult (responseText : String) (parsed? : Option Json) :
    DetectionResult :=
  match parsed? with
  | none => fallbackResult responseText
  | some .null => fallbackResult responseText
  | some parsed =>
    { hasPII := jsOr (parsed.getField "hasPII") (.bool false)
      confidence := jsOr (parsed.getField "confidence") (.num 0)
      detectedItems := jsOr (parsed.getField "detectedItems") (.arr [])
      reasoning := jsOr (parsed.getField "reasoning") (.str "")
      riskLevel := jsOr (parsed.getField "riskLevel") (.str "low")
      imageContainsText := parsed.getField "imageContainsText"
      rawResponse := none }

/-- Per-key bookkeeping record (source lines 32-37 and `KeyUsageStats` in
`src/types.ts`); `lastUsed` timestamps are modelled as `Nat` clock values. -/
structure KeyStats where
  requests : Nat
  errors : Nat
  lastUsed : Option Nat
  rateLimitHits : Nat
deriving DecidableEq, Repr

/-- The mutable service state (fields of `PIIDetectionService`, source
lines 18-22).  `rateLimitResetTimes` models the `Map<number, number>` as a
list aligned with `apiKeys`: `none` at an index means the map has no entry
for it.  The Gemini client objects carry no modelled state. -/
structure ServiceState where
  apiKeys : List String
  currentKeyIndex : Nat
  keyUsageStats : List KeyStats
  rateLimitResetTimes : List (Option Nat)
deriving DecidableEq, Repr

/-- Replace the element at index `i` by `f` of it (out-of-range: no-op). -/
def modifyIdx : List α → Nat → (α → α) → List α
  | [], _, _ => []
  | x :: xs, 0, f => f x :: xs
  | x :: xs, n + 1, f => x :: modifyIdx xs n f

/-- Set the element at index `i` (out-of-range: no-op; the service only
ever touches indices below `apiKeys.length`). -/
def setIdx (l : List α) (i : Nat) (v : α) : List α :=
  modifyIdx l i (fun _ => v)

/-- The all-zero stats record created in the constructor (lines 32-37). -/
def initKeyStats : KeyStats :=
  { requests := 0, errors := 0, lastUsed := none, rateLimitHits := 0 }

/-- Constructor (source lines 26-53): throws when the key list is empty
(modelled as `none`, the spec name for this failure is
`EmptyCredentialSet`), otherwise starts at key index 0 with zeroed stats
and an empty cooldown map. -/
def initService (apiKeys : List String) : Option ServiceState :=
  if apiKeys.isEmpty then none
  else some
    { apiKeys := apiKeys
      currentKeyIndex := 0
      keyUsageStats := apiKeys.map (fun _ => initKeyStats)
      rateLimitResetTimes := apiKeys.map (fun _ => none) }

/-- Well-formedness maintained by every operation: parallel array lengths
and an in-range current index over a non-empty pool. -/
def WF (s : ServiceState) : Prop :=
  0 < s.apiKeys.length ∧
  s.keyUsageStats.length = s.apiKeys.length ∧
  s.rateLimitResetTimes.length = s.apiKeys.length ∧
  s.currentKeyIndex < s.apiKeys.length

instance (s : ServiceState) : Decidable (WF s) := by
  unfold WF; infer_instance

/-- Source lines 61-73 (`rotateAPIKey`, the operation the spec calls
`markRateLimited`): advance `current` to `(index+1) mod N`, increment the
previous index field `rateLimitHits`, and give the previous index a cooldown of
`now + 60000` milliseconds.  Returns the new current index alongside the
state. -/
def rotateAPIKey (now : Nat) (s : ServiceState) : ServiceState × Nat :=
  let previousIndex := s.currentKeyIndex
  let newIndex := (s.currentKeyIndex + 1) % s.apiKeys.length
  ({ s with
      currentKeyIndex := newIndex
      keyUsageStats := modifyIdx s.keyUsageStats previousIndex
        (fun st => { st with rateLimitHits := st.rateLimitHits + 1 })
      rateLimitResetTimes :=
        setIdx s.rateLimitResetTimes previousIndex (some (now + 60000)) },
    newIndex)

/-- Line 82 condition `!resetTime || now > resetTime`: an absent map entry
is eligible, and so is a stored time that is JavaScript-falsy (`0`) or
strictly in the past. -/
def keyEligible (resets : List (Option Nat)) (now k : Nat) : Bool :=
  match resets.getD k none with
  | none => true
  | some t => t == 0 || decide (now > t)

/-- Source lines 75-93 (`findAvailableKey`, the operation the spec calls
`findEligible`): scan offsets `i = 0..N-1` from the current index, wrapping
mod N; on the first eligible index, make it current (a self-assignment when
the current index itself is eligible at offset 0) and return `true`;
return `false` when every key is cooling down. -/
def findAvailableKey (now : Nat) (s : ServiceState) : ServiceState × Bool :=
  match (List.range s.apiKeys.length).find?
      (fun i => keyEligible s.rateLimitResetTimes now
        ((s.currentKeyIndex + i) % s.apiKeys.length)) with
  | some i =>
    ({ s with currentKeyIndex := (s.currentKeyIndex + i) % s.apiKeys.length },
      true)
  | none => (s, false)

/-- The upstream error object: `message` and `status` are both optional in
the source (`error.message?.includes`, `error.status === 429`). -/
structure UpstreamErr where
  message : Option String
  status : Option Int
deriving DecidableEq, Repr

/-- Source lines 178-182: classification of a failure as a rate-limit
failure. -/
def isRateLimitError (e : UpstreamErr) : Bool :=
  (match e.message with
   | some m =>
     jsIncludes m "429" || jsIncludes m "rate limit" ||
     jsIncludes m "RESOURCE_EXHAUSTED"
   | none => false) ||
  e.status == some 429

/-- One scripted upstream call outcome. -/
inductive Outcome where
  | success (text : String)
  | failure (e : UpstreamErr)
deriving DecidableEq, Repr

/-- Terminal dispatch failures: the spec name `AllCredentialsExhausted`
(source line 195, the thrown error saying all API keys are currently rate
limited) and `UpstreamError` (line 211, `throw error`). -/
inductive DispatchError where
  | allKeysRateLimited
  | upstream (e : UpstreamErr)
deriving DecidableEq, Repr

/-- Result of a dispatch call. -/
inductive DispatchResult where
  | ok (text : String)
  | error (e : DispatchError)
deriving DecidableEq, Repr

/-- Source lines 169-170: count the attempt and stamp `lastUsed` on the
current key before issuing the call. -/
def recordAttempt (now : Nat) (s : ServiceState) : ServiceState :=
  { s with
      keyUsageStats := modifyIdx s.keyUsageStats s.currentKeyIndex
        (fun st => { st with requests := st.requests + 1, lastUsed := some now }) }

/-- Source line 176: count the error on the current key. -/
def recordError (s : ServiceState) : ServiceState :=
  { s with
      keyUsageStats := modifyIdx s.keyUsageStats s.currentKeyIndex
        (fun st => { st with errors := st.errors + 1 }) }

/-- Retry configuration (`config.maxRetries`, `config.retryDelay`; the
constructor defaults are 3 and 1000). -/
structure Config where
  maxRetries : Nat
  retryDelay : Nat
deriving DecidableEq, Repr

/-- Outcome of one body of the `try`/`catch` in `callGeminiWithRetry`:
either a terminal result or a retry after sleeping `sleepMs`, continuing in
state `s`. -/
inductive StepResult where
  | done (r : DispatchResult) (s : ServiceState)
  | retry (sleepMs : Nat) (s : ServiceState)
deriving DecidableEq, Repr

/-- Source lines 199-211, the code below the rate-limit block: when the
attempt budget remains, sleep `retryDelay * 2^(attempt-1)` and, for
`attempt > 1`, rotate (the rotation happens after the sleep, hence at clock
`now + backoffDelay`); otherwise rethrow the underlying error.  The
rate-limit branch falls through to this code when an eligible key exists
but the budget is exhausted. -/
def nonRateLimitRetry (cfg : Config) (now attempt : Nat) (e : UpstreamErr)
    (s : ServiceState) : StepResult :=
  if attempt ≤ cfg.maxRetries then
    let backoffDelay := cfg.retryDelay * 2 ^ (attempt - 1)
    let s1 := if attempt > 1 then (rotateAPIKey (now + backoffDelay) s).1 else s
    .retry backoffDelay s1
  else
    .done (.error (.upstream e)) s

/-- Source lines 167-213, one iteration: bookkeeping, then the scripted
call outcome; on failure, classify and branch exactly as the source does.
Note that on the rate-limit path the source consults `findAvailableKey`
WITHOUT first calling `rotateAPIKey`. -/
def callGeminiStep (cfg : Config) (now attempt : Nat) (o : Outcome)
    (s0 : ServiceState) : StepResult :=
  let s := recordAttempt now s0
  match o with
  | .success t => .done (.ok t) s
  | .failure e =>
    let s := recordError s
    if isRateLimitError e then
      let p := findAvailableKey now s
      if p.2 && decide (attempt ≤ cfg.maxRetries) then
        .retry cfg.retryDelay p.1
      else if !p.2 then
        .done (.error .allKeysRateLimited) p.1
      else
        nonRateLimitRetry cfg now attempt e p.1
    else
      nonRateLimitRetry cfg now attempt e s

/-- The recursive retry loop of `callGeminiWithRetry`, driven by the script
of upstream outcomes (one outcome consumed per attempt).  Returns the
terminal result, the final state, and the list of sleep durations issued
before each retry; `none` means the script was too short to reach a
terminal result. -/
def callGeminiWithRetry (cfg : Config) :
    List Outcome → Nat → Nat → ServiceState →
    Option (DispatchResult × ServiceState × List Nat)
  | [], _, _, _ => none
  | o :: rest, attempt, now, s =>
    match callGeminiStep cfg now attempt o s with
    | .done r s1 => some (r, s1, [])
    | .retry d s1 =>
      match callGeminiWithRetry cfg rest (attempt + 1) (now + d) s1 with
      | some (r, s2, ds) => some (r, s2, d :: ds)
      | none => none

/-- JavaScript `s.substring(0, n)`: the first `min n (length s)`
characters. -/
def jsSubstring0 (s : String) (n : Nat) : String :=
  ⟨s.data.take n⟩

/-- One entry of the telemetry view (`UsageStatsResponse` in
`src/types.ts`). -/
structure UsageStatsEntry where
  keyIndex : Nat
  keyPreview : String
  isCurrent : Bool
  requests : Nat
  errors : Nat
  lastUsed : Option Nat
  rateLimitHits : Nat
deriving DecidableEq, Repr

/-- Source lines 419-426 (`getUsageStats`): map each key to a report entry
whose preview is the first 8 characters of the key followed by `...`. -/
def getUsageStats (s : ServiceState) : List UsageStatsEntry :=
  s.apiKeys.enum.map fun p =>
    let st := s.keyUsageStats.getD p.1 initKeyStats
    { keyIndex := p.1
      keyPreview := jsSubstring0 p.2 8 ++ "..."
      isCurrent := p.1 == s.currentKeyIndex
      requests := st.requests
      errors := st.errors
      lastUsed := st.lastUsed
      rateLimitHits := st.rateLimitHits }

/-! Auxiliary vocabulary used only in theorem statements. -/

/-- A singleton field list when the value is present, empty otherwise:
building block for upstream records with an arbitrary subset of fields. -/
def optField (name : String) (v : Option Json) : List (String × Json) :=
  match v with
  | some j => [(name, j)]
  | none => []

/-- An upstream record carrying any subset of the five documented fields,
each (when present) of its declared type: used to quantify over the
partially well-formed records of the specification. -/
def buildRecord (hasPII? : Option Bool) (confidence? : Option Int)
    (items? : Option (List Json)) (reasoning? : Option String)
    (riskLevel? : Option String) : Json :=
  .obj (optField "hasPII" (hasPII?.map .bool) ++
    optField "confidence" (confidence?.map .num) ++
    optField "detectedItems" (items?.map .arr) ++
    optField "reasoning" (reasoning?.map .str) ++
    optField "riskLevel" (riskLevel?.map .str))

/-- Iterate `rotateAPIKey` (the spec name is `markRateLimited`) `k` times,
all at simulated clock `t`. -/
def rotIter (t : Nat) : Nat → ServiceState → ServiceState
  | 0, s => s
  | k + 1, s => rotIter t k (rotateAPIKey t s).1

/-- Demo credential (24 characters, matching the repository loader
requirement of at least 20 non-placeholder characters). -/
def demoKeyA : String := "demo-key-aaaaaaaaaaaaaaa"

/-- Second demo credential. -/
def demoKeyB : String := "demo-key-bbbbbbbbbbbbbbb"

/-- A freshly constructed two-credential pool. -/
def demoPool2 : ServiceState :=
  { apiKeys := [demoKeyA, demoKeyB]
    currentKeyIndex := 0
    keyUsageStats := [initKeyStats, initKeyStats]
    rateLimitResetTimes := [none, none] }

/-- A freshly constructed single-credential pool. -/
def demoPool1 : ServiceState :=
  { apiKeys := [demoKeyA]
    currentKeyIndex := 0
    keyUsageStats := [initKeyStats]
    rateLimitResetTimes := [none] }

/-- An upstream failure the source classifies as a rate-limit failure. -/
def err429 : UpstreamErr :=
  { message := some "429 Too Many Requests", status := some 429 }

/-- An upstream failure the source does not classify as rate-limit. -/
def errNet : UpstreamErr :=
  { message := some "network timeout", status := none }

/-- The constructor-default retry configuration (`maxRetries = 3`,
`retryDelay = 1000`). -/
def cfgDefault : Config := { maxRetries := 3, retryDelay := 1000 }

/-! Helper lemmas about the JavaScript defaulting combinators. -/

theorem jsOr_map_bool (a : Option Bool) :
    jsOr (a.map .bool) (.bool false) = .bool (a.getD false) := by
  cases a with
  | none => rfl
  | some b => cases b <;> rfl

theorem jsOr_map_num (b : Option Int) :
    jsOr (b.map .num) (.num 0) = .num (b.getD 0) := by
  cases b with
  | none => rfl
  | some n =>
    by_cases hn : n = 0
    · subst hn; rfl
    · simp [jsOr, Json.truthy, hn]

theorem jsOr_map_arr (c : Option (List Json)) :
    jsOr (c.map .arr) (.arr []) = .arr (c.getD []) := by
  cases c <;> rfl

theorem jsOr_map_str_empty (d : Option String) :
    jsOr (d.map .str) (.str "") = .str (d.getD "") := by
  cases d with
  | none => rfl
  | some r =>
    by_cases hr : r = ""
    · subst hr; rfl
    · simp [jsOr, Json.truthy, hr]

theorem jsOr_map_str_ne (e : Option String) (w : String)
    (h : ∀ v, e = some v → v ≠ "") :
    jsOr (e.map .str) (.str w) = .str (e.getD w) := by
  cases e with
  | none => rfl
  | some v => simp [jsOr, Json.truthy, h v rfl]

/-- Field access over `buildRecord` resolves each documented field name to
the corresponding optional payload, and misses `imageContainsText`. -/
theorem buildRecord_fields (a : Option Bool) (b : Option Int)
    (c : Option (List Json)) (d : Option String) (e : Option String) :
    (buildRecord a b c d e).getField "hasPII" = a.map .bool ∧
    (buildRecord a b c d e).getField "confidence" = b.map .num ∧
    (buildRecord a b c d e).getField "detectedItems" = c.map .arr ∧
    (buildRecord a b c d e).getField "reasoning" = d.map .str ∧
    (buildRecord a b c d e).getField "riskLevel" = e.map .str ∧
    (buildRecord a b c d e).getField "imageContainsText" = none := by
  rcases a with _ | a <;> rcases b with _ | b <;> rcases c with _ | c <;>
    rcases d with _ | d <;> rcases e with _ | e <;>
    exact ⟨rfl, rfl, rfl, rfl, rfl, rfl⟩

/-! Claim C5 (normalizer totality and fallback). -/

/-- C5, counterexample: the input `"5"` is not interpretable as the
expected record (it parses as the bare number 5), yet the normalizer does
NOT return the fallback result: `JSON.parse` succeeds, property access on a
number yields `undefined`, and the all-defaults record (confidence 0,
riskLevel low) is returned instead of the fallback (confidence 50,
riskLevel medium). -/
theorem c5_nonrecord_not_fallback :
    parseDetectionResult "5" (some (.num 5)) =
      { hasPII := .bool false, confidence := .num 0, detectedItems := .arr []
        reasoning := .str "", riskLevel := .str "low"
        imageContainsText := none, rawResponse := none } ∧
    parseDetectionResult "5" (some (.num 5)) ≠ fallbackResult "5" := by
  refine ⟨rfl, fun h => ?_⟩
  exact absurd (Json.num.inj (congrArg DetectionResult.confidence h)) (by decide)

/-- C5, amended: the normalizer is total by construction, and whenever
parsing raises — the parse of the cleaned text throws, or yields `null`,
whose first property access throws — it returns exactly the fallback
result: `flagged` is true iff the lowercased raw text contains one of the
four fixed trigger substrings, confidence 50, severity `medium`, empty
items, and the fixed reasoning string.  (Text that parses to a non-record
value other than `null` instead goes through the field-defaulting path, per
the counterexample.) -/
theorem c5_fallback_on_parse_failure (rt : String) (parsed? : Option Json)
    (h : parsed? = none ∨ parsed? = some .null) :
    parseDetectionResult rt parsed? =
      { hasPII := .bool (jsIncludes (jsToLower rt) "detected" ||
          jsIncludes (jsToLower rt) "found" ||
          jsIncludes (jsToLower rt) "phone" ||
          jsIncludes (jsToLower rt) "email")
        confidence := .num 50
        detectedItems := .arr []
        reasoning := .str "Failed to parse response, flagging as potential PII"
        riskLevel := .str "medium"
        imageContainsText := none
        rawResponse := some rt } := by
  rcases h with h | h <;> subst h <;> rfl

/-- C5 witness: a concrete unparseable response containing the trigger
substring `detected` is flagged by the fallback. -/
theorem c5_fallback_on_parse_failure_witness :
    parseDetectionResult "Sorry, PII was Detected in the text." none =
      { hasPII := .bool true
        confidence := .num 50
        detectedItems := .arr []
        reasoning := .str "Failed to parse response, flagging as potential PII"
        riskLevel := .str "medium"
        imageContainsText := none
        rawResponse := some "Sorry, PII was Detected in the text." } :=
  (c5_fallback_on_parse_failure "Sorry, PII was Detected in the text." none
    (Or.inl rfl)).trans (by rfl)

/-! Claim C6 (partially well-formed records are accepted field-by-field). -/

/-- C6: for every upstream record carrying any subset of the five
documented fields at their declared types (severity drawn from the
enumeration), the normalizer keeps each present field and replaces each
absent field by its documented default (`hasPII = false`, `confidence = 0`,
`detectedItems = []`, `reasoning = ""`, `riskLevel = "low"`); the spec
names these fields flagged / confidence / items / reasoning / severity. -/
theorem c6_partial_record_defaults (rt : String) (hasPII? : Option Bool)
    (confidence? : Option Int) (items? : Option (List Json))
    (reasoning? : Option String) (riskLevel? : Option String)
    (hsev : ∀ v, riskLevel? = some v → v ∈ ["critical", "high", "medium", "low"]) :
    parseDetectionResult rt
        (some (buildRecord hasPII? confidence? items? reasoning? riskLevel?)) =
      { hasPII := .bool (hasPII?.getD false)
        confidence := .num (confidence?.getD 0)
        detectedItems := .arr (items?.getD [])
        reasoning := .str (reasoning?.getD "")
        riskLevel := .str (riskLevel?.getD "low")
        imageContainsText := none
        rawResponse := none } := by
  obtain ⟨h1, h2, h3, h4, h5, h6⟩ :=
    buildRecord_fields hasPII? confidence? items? reasoning? riskLevel?
  have hne : ∀ v, riskLevel? = some v → v ≠ "" := by
    intro v hv he
    have hmem := hsev v hv
    subst he
    exact absurd hmem (by decide)
  have h0 : parseDetectionResult rt
      (some (buildRecord hasPII? confidence? items? reasoning? riskLevel?)) =
      { hasPII := jsOr ((buildRecord hasPII? confidence? items? reasoning?
          riskLevel?).getField "hasPII") (.bool false)
        confidence := jsOr ((buildRecord hasPII? confidence? items? reasoning?
          riskLevel?).getField "confidence") (.num 0)
        detectedItems := jsOr ((buildRecord hasPII? confidence? items?
          reasoning? riskLevel?).getField "detectedItems") (.arr [])
        reasoning := jsOr ((buildRecord hasPII? confidence? items? reasoning?
          riskLevel?).getField "reasoning") (.str "")
        riskLevel := jsOr ((buildRecord hasPII? confidence? items? reasoning?
          riskLevel?).getField "riskLevel") (.str "low")
        imageContainsText := (buildRecord hasPII? confidence? items? reasoning?
          riskLevel?).getField "imageContainsText"
        rawResponse := none } := rfl
  rw [h0, h1, h2, h3, h4, h5, h6, jsOr_map_bool, jsOr_map_num, jsOr_map_arr,
    jsOr_map_str_empty, jsOr_map_str_ne riskLevel? "low" hne]

/-- C6 witness: the spec instance — a record whose only field is the flag
set to true (the source field name for the spec field `flagged` is
`hasPII`) yields the flag with every other field at its default. -/
theorem c6_partial_record_defaults_witness :
    parseDetectionResult "\x7b\"hasPII\":true\x7d"
        (some (buildRecord (some true) none none none none)) =
      { hasPII := .bool true, confidence := .num 0, detectedItems := .arr []
        reasoning := .str "", riskLevel := .str "low"
        imageContainsText := none, rawResponse := none } :=
  c6_partial_record_defaults "\x7b\"hasPII\":true\x7d" (some true) none none
    none none (fun _ hv => Option.noConfusion hv)

/-! Claim C7 (no range or enumeration coercion outside the fallback). -/

/-- C7, counterexample: a structured record with confidence 150 (outside
0-100) and riskLevel `banana` (outside the enumeration) is NOT coerced to
the safe defaults: both out-of-range values pass through unchanged, because
the source only applies JavaScript `||` defaulting, which replaces
exclusively absent or falsy values. -/
theorem c7_out_of_range_passes_through :
    (parseDetectionResult "x"
      (some (.obj [("confidence", .num 150), ("riskLevel", .str "banana")]))).confidence
        = .num 150 ∧
    (parseDetectionResult "x"
      (some (.obj [("confidence", .num 150), ("riskLevel", .str "banana")]))).riskLevel
        = .str "banana" ∧
    ¬ ((parseDetectionResult "x"
      (some (.obj [("confidence", .num 150), ("riskLevel", .str "banana")]))).confidence
        = .num 0) := by
  refine ⟨rfl, rfl, fun h => ?_⟩
  exact absurd (Json.num.inj h) (by decide)

/-- C7, amended: upstream `confidence` and `riskLevel` values are replaced
by the safe defaults (0 and `low`) only when absent or JavaScript-falsy;
any truthy value — including out-of-range confidence and severity strings
outside the enumeration — is passed through unchanged. -/
theorem c7_only_falsy_coerced (rt : String) (c : Int) (v : String)
    (hc : c ≠ 0) (hv : v ≠ "") :
    parseDetectionResult rt
        (some (.obj [("confidence", .num c), ("riskLevel", .str v)])) =
      { hasPII := .bool false, confidence := .num c, detectedItems := .arr []
        reasoning := .str "", riskLevel := .str v
        imageContainsText := none, rawResponse := none } := by
  have h0 : parseDetectionResult rt
      (some (.obj [("confidence", .num c), ("riskLevel", .str v)])) =
      { hasPII := .bool false
        confidence := jsOr (some (.num c)) (.num 0)
        detectedItems := .arr []
        reasoning := .str ""
        riskLevel := jsOr (some (.str v)) (.str "low")
        imageContainsText := none
        rawResponse := none } := rfl
  rw [h0]
  simp [jsOr, Json.truthy, hc, hv]

/-- C7 witness for the amended statement at the counterexample values. -/
theorem c7_only_falsy_coerced_witness :
    parseDetectionResult "x"
        (some (.obj [("confidence", .num 150), ("riskLevel", .str "banana")])) =
      { hasPII := .bool false, confidence := .num 150, detectedItems := .arr []
        reasoning := .str "", riskLevel := .str "banana"
        imageContainsText := none, rawResponse := none } :=
  c7_only_falsy_coerced "x" 150 "banana" (by decide) (by decide)

/-! Helper lemmas about dispatcher steps and indexed list access. -/

theorem length_modifyIdx (l : List α) (i : Nat) (f : α → α) :
    (modifyIdx l i f).length = l.length := by
  induction l generalizing i with
  | nil => rfl
  | cons x xs ih => cases i <;> simp [modifyIdx, ih]

theorem get?_modifyIdx (l : List α) (i j : Nat) (f : α → α) :
    (modifyIdx l i f).get? j = if i = j then (l.get? j).map f else l.get? j := by
  induction l generalizing i j with
  | nil => cases i <;> cases j <;> simp [modifyIdx]
  | cons x xs ih =>
    cases i with
    | zero => cases j <;> simp [modifyIdx]
    | succ n =>
      cases j with
      | zero => simp [modifyIdx]
      | succ m => simpa [modifyIdx] using ih n m

theorem callGeminiStep_nonRL (cfg : Config) (now attempt : Nat)
    (e : UpstreamErr) (s : ServiceState) (h : isRateLimitError e = false) :
    callGeminiStep cfg now attempt (.failure e) s =
      nonRateLimitRetry cfg now attempt e (recordError (recordAttempt now s)) := by
  simp [callGeminiStep, h]

/-! Claim C1 (rate-limit failures are supposed to mark the credential
before looking for an eligible one). -/

/-- C1, code bug: on a two-credential pool whose first attempt fails with a
rate-limit failure, the dispatcher never calls `rotateAPIKey` (the spec
operation `markRateLimited`): it consults `findAvailableKey` directly,
which deems the CURRENT credential eligible (no cooldown was ever written),
so the retry reuses credential 0 — despite the source logging that it
retries "with different key".  In the final state, credential 0 has
`rateLimitHits = 0`, no cooldown entry, and is still current; the claim
(and the logging of the source itself, and the `rateLimitHits` field
semantics) require
`rateLimitHits = 1`, a cooldown of one minute, and rotation to credential
1. -/
theorem c1_rate_limit_does_not_mark :
    callGeminiWithRetry cfgDefault [.failure err429, .success "ok"] 1 0 demoPool2 =
      some (.ok "ok",
        { apiKeys := [demoKeyA, demoKeyB]
          currentKeyIndex := 0
          keyUsageStats :=
            [{ requests := 2, errors := 1, lastUsed := some 1000, rateLimitHits := 0 },
             initKeyStats]
          rateLimitResetTimes := [none, none] },
        [1000]) := by
  rfl

/-! Claim C2 (single-credential pool should fail fast with
AllCredentialsExhausted). -/

/-- C2, code bug: a single-credential pool receiving only rate-limit
failures never terminates with the `AllCredentialsExhausted` error and does
not stop at the first failure: because the rate-limit branch never writes a
cooldown, `findAvailableKey` keeps returning the sole credential as
eligible, so the dispatcher sleeps `retryDelay` three times, retries the
same credential, and finally rethrows the underlying upstream error after
the budget is exhausted. -/
theorem c2_single_pool_not_exhausted :
    callGeminiWithRetry cfgDefault
        [.failure err429, .failure err429, .failure err429, .failure err429]
        1 0 demoPool1 =
      some (.error (.upstream err429),
        { apiKeys := [demoKeyA]
          currentKeyIndex := 0
          keyUsageStats :=
            [{ requests := 4, errors := 4, lastUsed := some 3000, rateLimitHits := 0 }]
          rateLimitResetTimes := [none] },
        [1000, 1000, 1000]) := by
  rfl

/-! Claim C3 (non-rate-limit rotation and the previous credential). -/

/-- C3, counterexample: two non-rate-limit failures followed by a success
on a fresh two-credential pool.  The rotation performed before the third
attempt (the retry with `attempt = 2 > 1`) leaves credential 0 with
`rateLimitHits = 1` and a cooldown entry `63000`, refuting the claim that
the rate-limit state of the previous credential is unchanged. -/
theorem c3_counterexample :
    callGeminiWithRetry cfgDefault [.failure errNet, .failure errNet, .success "ok"]
        1 0 demoPool2 =
      some (.ok "ok",
        { apiKeys := [demoKeyA, demoKeyB]
          currentKeyIndex := 1
          keyUsageStats :=
            [{ requests := 2, errors := 2, lastUsed := some 1000, rateLimitHits := 1 },
             { requests := 1, errors := 0, lastUsed := some 3000, rateLimitHits := 0 }]
          rateLimitResetTimes := [some 63000, none] },
        [1000, 2000]) := by
  rfl

/-- C3, amended: when a non-rate-limit failure triggers a retry with
`attempt > 1`, the dispatcher rotates to the next credential via
`rotateAPIKey`, which also increments the previous credential field
`rateLimitHits` and sets its cooldown to the rotation instant plus one
minute — the rotation is not free of rate-limit side effects. -/
theorem c3_rotation_increments_and_cools (cfg : Config) (now attempt : Nat)
    (e : UpstreamErr) (s : ServiceState) (hWF : WF s)
    (hrl : isRateLimitError e = false) (h1 : 1 < attempt)
    (h2 : attempt ≤ cfg.maxRetries) :
    ∃ st : KeyStats,
      (recordError (recordAttempt now s)).keyUsageStats.get? s.currentKeyIndex
          = some st ∧
      callGeminiStep cfg now attempt (.failure e) s =
        .retry (cfg.retryDelay * 2 ^ (attempt - 1))
          (rotateAPIKey (now + cfg.retryDelay * 2 ^ (attempt - 1))
            (recordError (recordAttempt now s))).1 ∧
      (rotateAPIKey (now + cfg.retryDelay * 2 ^ (attempt - 1))
            (recordError (recordAttempt now s))).1.currentKeyIndex
          = (s.currentKeyIndex + 1) % s.apiKeys.length ∧
      (rotateAPIKey (now + cfg.retryDelay * 2 ^ (attempt - 1))
            (recordError (recordAttempt now s))).1.keyUsageStats.get?
            s.currentKeyIndex
          = some { st with rateLimitHits := st.rateLimitHits + 1 } ∧
      (rotateAPIKey (now + cfg.retryDelay * 2 ^ (attempt - 1))
            (recordError (recordAttempt now s))).1.rateLimitResetTimes.get?
            s.currentKeyIndex
          = some (some (now + cfg.retryDelay * 2 ^ (attempt - 1) + 60000)) := by
  obtain ⟨hpos, hstats, hresets, hcur⟩ := hWF
  have hlen1 : (recordError (recordAttempt now s)).keyUsageStats.length
      = s.apiKeys.length := by
    simp [recordError, recordAttempt, length_modifyIdx, hstats]
  have hlt : s.currentKeyIndex
      < (recordError (recordAttempt now s)).keyUsageStats.length := by
    rw [hlen1]; exact hcur
  obtain ⟨st, hst⟩ : ∃ st,
      (recordError (recordAttempt now s)).keyUsageStats.get? s.currentKeyIndex
        = some st := by
    rw [List.get?_eq_get hlt]; exact ⟨_, rfl⟩
  have hstep : callGeminiStep cfg now attempt (.failure e) s =
      .retry (cfg.retryDelay * 2 ^ (attempt - 1))
        (rotateAPIKey (now + cfg.retryDelay * 2 ^ (attempt - 1))
          (recordError (recordAttempt now s))).1 := by
    rw [callGeminiStep_nonRL cfg now attempt e s hrl]
    simp [nonRateLimitRetry, h2, h1]
  have hstats2 : (rotateAPIKey (now + cfg.retryDelay * 2 ^ (attempt - 1))
        (recordError (recordAttempt now s))).1.keyUsageStats.get?
          s.currentKeyIndex
      = some { st with rateLimitHits := st.rateLimitHits + 1 } := by
    have hrw : (rotateAPIKey (now + cfg.retryDelay * 2 ^ (attempt - 1))
          (recordError (recordAttempt now s))).1.keyUsageStats
        = modifyIdx (recordError (recordAttempt now s)).keyUsageStats
            s.currentKeyIndex
            (fun kst => { kst with rateLimitHits := kst.rateLimitHits + 1 }) :=
      rfl
    rw [hrw, get?_modifyIdx, if_pos rfl, hst]
    rfl
  have hlt2 : s.currentKeyIndex
      < (recordError (recordAttempt now s)).rateLimitResetTimes.length := by
    have : (recordError (recordAttempt now s)).rateLimitResetTimes
        = s.rateLimitResetTimes := rfl
    rw [this, hresets]; exact hcur
  obtain ⟨old, hold⟩ : ∃ o,
      (recordError (recordAttempt now s)).rateLimitResetTimes.get?
        s.currentKeyIndex = some o := by
    rw [List.get?_eq_get hlt2]; exact ⟨_, rfl⟩
  have hresets2 : (rotateAPIKey (now + cfg.retryDelay * 2 ^ (attempt - 1))
        (recordError (recordAttempt now s))).1.rateLimitResetTimes.get?
          s.currentKeyIndex
      = some (some (now + cfg.retryDelay * 2 ^ (attempt - 1) + 60000)) := by
    have hrw : (rotateAPIKey (now + cfg.retryDelay * 2 ^ (attempt - 1))
          (recordError (recordAttempt now s))).1.rateLimitResetTimes
        = setIdx (recordError (recordAttempt now s)).rateLimitResetTimes
            s.currentKeyIndex
            (some (now + cfg.retryDelay * 2 ^ (attempt - 1) + 60000)) := rfl
    rw [hrw, setIdx, get?_modifyIdx, if_pos rfl, hold]
    rfl
  exact ⟨st, hst, hstep, rfl, hstats2, hresets2⟩

/-- C3 witness: the amended rotation effects at the concrete input of the
counterexample (attempt 2, default configuration, fresh two-credential
pool). -/
theorem c3_rotation_increments_and_cools_witness :
    ∃ st : KeyStats,
      (recordError (recordAttempt 0 demoPool2)).keyUsageStats.get?
          demoPool2.currentKeyIndex = some st ∧
      callGeminiStep cfgDefault 0 2 (.failure errNet) demoPool2 =
        .retry (cfgDefault.retryDelay * 2 ^ (2 - 1))
          (rotateAPIKey (0 + cfgDefault.retryDelay * 2 ^ (2 - 1))
            (recordError (recordAttempt 0 demoPool2))).1 ∧
      (rotateAPIKey (0 + cfgDefault.retryDelay * 2 ^ (2 - 1))
            (recordError (recordAttempt 0 demoPool2))).1.currentKeyIndex
          = (demoPool2.currentKeyIndex + 1) % demoPool2.apiKeys.length ∧
      (rotateAPIKey (0 + cfgDefault.retryDelay * 2 ^ (2 - 1))
            (recordError (recordAttempt 0 demoPool2))).1.keyUsageStats.get?
            demoPool2.currentKeyIndex
          = some { st with rateLimitHits := st.rateLimitHits + 1 } ∧
      (rotateAPIKey (0 + cfgDefault.retryDelay * 2 ^ (2 - 1))
            (recordError (recordAttempt 0 demoPool2))).1.rateLimitResetTimes.get?
            demoPool2.currentKeyIndex
          = some (some (0 + cfgDefault.retryDelay * 2 ^ (2 - 1) + 60000)) :=
  c3_rotation_increments_and_cools cfgDefault 0 2 errNet demoPool2
    (by decide) (by decide) (by decide) (by decide)

/-! Claim C4 (exponential backoff schedule). -/

/-- C4: with the default configuration (`maxRetries = 3`,
`retryDelay = 1000`), any dispatch seeing three consecutive non-rate-limit
failures followed by a success sleeps exactly 1000 ms, 2000 ms and 4000 ms
before the second, third and successful fourth attempts
(`retryDelay * 2^(attempt-1)` for attempts 1, 2, 3). -/
theorem c4_exponential_backoff (e : UpstreamErr) (t : String) (now : Nat)
    (s : ServiceState) (h : isRateLimitError e = false) :
    (callGeminiWithRetry cfgDefault
        [.failure e, .failure e, .failure e, .success t] 1 now s).map
      (fun r => (r.1, r.2.2)) = some (.ok t, [1000, 2000, 4000]) := by
  have h1 : ∀ (m : Nat) (st : ServiceState),
      callGeminiStep cfgDefault m 1 (.failure e) st =
        .retry 1000 (recordError (recordAttempt m st)) := by
    intro m st
    rw [callGeminiStep_nonRL cfgDefault m 1 e st h]
    simp [nonRateLimitRetry, cfgDefault]
  have h2 : ∀ (m : Nat) (st : ServiceState),
      callGeminiStep cfgDefault m 2 (.failure e) st =
        .retry 2000
          (rotateAPIKey (m + 2000) (recordError (recordAttempt m st))).1 := by
    intro m st
    rw [callGeminiStep_nonRL cfgDefault m 2 e st h]
    norm_num [nonRateLimitRetry, cfgDefault]
  have h3 : ∀ (m : Nat) (st : ServiceState),
      callGeminiStep cfgDefault m 3 (.failure e) st =
        .retry 4000
          (rotateAPIKey (m + 4000) (recordError (recordAttempt m st))).1 := by
    intro m st
    rw [callGeminiStep_nonRL cfgDefault m 3 e st h]
    norm_num [nonRateLimitRetry, cfgDefault]
  have h4 : ∀ (m : Nat) (st : ServiceState),
      callGeminiStep cfgDefault m 4 (.success t) st =
        .done (.ok t) (recordAttempt m st) := fun _ _ => rfl
  simp only [callGeminiWithRetry, h1, h2, h3, h4, Option.map]

/-- C4 witness: the backoff schedule at a concrete non-rate-limit failure
on a fresh two-credential pool. -/
theorem c4_exponential_backoff_witness :
    (callGeminiWithRetry cfgDefault
        [.failure errNet, .failure errNet, .failure errNet, .success "ok"]
        1 0 demoPool2).map
      (fun r => (r.1, r.2.2)) = some (.ok "ok", [1000, 2000, 4000]) :=
  c4_exponential_backoff errNet "ok" 0 demoPool2 (by decide)

/-! Claim C10 (rate-limit failure with an eligible credential but an
exhausted budget rethrows the underlying error). -/

/-- C10: when a failure is classified as rate-limit, `findAvailableKey`
reports an eligible credential, but the attempt counter already exceeds
`maxRetries`, the dispatcher terminates by rethrowing the underlying
upstream error (the `UpstreamError` path) — not `AllCredentialsExhausted`:
the rate-limit branch falls through past both of its guarded exits into the
final rethrow. -/
theorem c10_budget_exhausted_rethrows (cfg : Config) (now attempt : Nat)
    (e : UpstreamErr) (s : ServiceState) (rest : List Outcome)
    (hrl : isRateLimitError e = true)
    (havail : (findAvailableKey now (recordError (recordAttempt now s))).2 = true)
    (hbudget : cfg.maxRetries < attempt) :
    callGeminiWithRetry cfg (.failure e :: rest) attempt now s =
      some (.error (.upstream e),
        (findAvailableKey now (recordError (recordAttempt now s))).1, []) := by
  have hb : ¬ (attempt ≤ cfg.maxRetries) := Nat.not_le.mpr hbudget
  have hstep : callGeminiStep cfg now attempt (.failure e) s =
      .done (.error (.upstream e))
        (findAvailableKey now (recordError (recordAttempt now s))).1 := by
    simp [callGeminiStep, hrl, havail, nonRateLimitRetry, hb]
  simp [callGeminiWithRetry, hstep]

/-- C10 witness: attempt 4 under the default configuration, a rate-limit
failure, and a fresh two-credential pool (whose keys are all eligible). -/
theorem c10_budget_exhausted_rethrows_witness :
    callGeminiWithRetry cfgDefault [.failure err429] 4 0 demoPool2 =
      some (.error (.upstream err429),
        (findAvailableKey 0 (recordError (recordAttempt 0 demoPool2))).1, []) :=
  c10_budget_exhausted_rethrows cfgDefault 0 4 err429 demoPool2 []
    (by decide) (by decide) (by decide)

/-! Helper lemmas for the round-robin rotation claim. -/

theorem rotIter_apiKeys (t k : Nat) : ∀ s : ServiceState,
    (rotIter t k s).apiKeys = s.apiKeys := by
  induction k with
  | zero => intro s; rfl
  | succ k ih => intro s; rw [rotIter]; exact (ih _).trans rfl

theorem WF_rotateAPIKey (t : Nat) (s : ServiceState) (h : WF s) :
    WF (rotateAPIKey t s).1 := by
  obtain ⟨hpos, hstats, hresets, hcur⟩ := h
  refine ⟨hpos, ?_, ?_, Nat.mod_lt _ hpos⟩
  · have h1 : (rotateAPIKey t s).1.keyUsageStats
        = modifyIdx s.keyUsageStats s.currentKeyIndex
          (fun st => { st with rateLimitHits := st.rateLimitHits + 1 }) := rfl
    rw [h1, length_modifyIdx]
    exact hstats
  · have h2 : (rotateAPIKey t s).1.rateLimitResetTimes
        = setIdx s.rateLimitResetTimes s.currentKeyIndex (some (t + 60000)) :=
      rfl
    rw [h2, setIdx, length_modifyIdx]
    exact hresets

theorem WF_rotIter (t k : Nat) : ∀ s : ServiceState, WF s →
    WF (rotIter t k s) := by
  induction k with
  | zero => intro s h; exact h
  | succ k ih => intro s h; rw [rotIter]; exact ih _ (WF_rotateAPIKey t s h)

theorem rotIter_current (t k : Nat) : ∀ s : ServiceState, WF s →
    (rotIter t k s).currentKeyIndex
      = (s.currentKeyIndex + k) % s.apiKeys.length := by
  induction k with
  | zero =>
    intro s h
    rw [Nat.add_zero, Nat.mod_eq_of_lt h.2.2.2]
    rfl
  | succ k ih =>
    intro s h
    rw [rotIter, ih _ (WF_rotateAPIKey t s h)]
    show ((s.currentKeyIndex + 1) % s.apiKeys.length + k) % s.apiKeys.length = _
    rw [Nat.mod_add_mod]
    congr 1
    omega

theorem rotIter_resets (t : Nat) (k : Nat) : ∀ (s : ServiceState), WF s →
    ∀ i, (rotIter t k s).rateLimitResetTimes.get? i =
      if i ∈ (List.range k).map
          (fun j => (s.currentKeyIndex + j) % s.apiKeys.length)
      then some (some (t + 60000))
      else s.rateLimitResetTimes.get? i := by
  induction k with
  | zero => intro s hWF i; simp [rotIter]
  | succ k ih =>
    intro s hWF i
    obtain ⟨hpos, hstats, hresets, hcur⟩ := hWF
    rw [rotIter, ih _ (WF_rotateAPIKey t s ⟨hpos, hstats, hresets, hcur⟩)]
    have hresets1 : (rotateAPIKey t s).1.rateLimitResetTimes.get? i
        = if s.currentKeyIndex = i
          then (s.rateLimitResetTimes.get? i).map (fun _ => some (t + 60000))
          else s.rateLimitResetTimes.get? i := by
      rw [show (rotateAPIKey t s).1.rateLimitResetTimes
            = setIdx s.rateLimitResetTimes s.currentKeyIndex (some (t + 60000))
          from rfl, setIdx, get?_modifyIdx]
    have hfun : ∀ j, (s.currentKeyIndex + Nat.succ j) % s.apiKeys.length
        = ((rotateAPIKey t s).1.currentKeyIndex + j)
          % (rotateAPIKey t s).1.apiKeys.length := by
      intro j
      show (s.currentKeyIndex + (j + 1)) % s.apiKeys.length
        = ((s.currentKeyIndex + 1) % s.apiKeys.length + j) % s.apiKeys.length
      rw [Nat.mod_add_mod]
      congr 1
      omega
    have hcond : (i ∈ (List.range (k + 1)).map
          (fun j => (s.currentKeyIndex + j) % s.apiKeys.length))
        ↔ (i = s.currentKeyIndex ∨ i ∈ (List.range k).map
          (fun j => ((rotateAPIKey t s).1.currentKeyIndex + j)
            % (rotateAPIKey t s).1.apiKeys.length)) := by
      rw [List.range_succ_eq_map, List.map_cons, List.map_map]
      rw [show ((fun j => (s.currentKeyIndex + j) % s.apiKeys.length) ∘ Nat.succ)
            = fun j => ((rotateAPIKey t s).1.currentKeyIndex + j)
              % (rotateAPIKey t s).1.apiKeys.length from funext hfun]
      rw [List.mem_cons, Nat.add_zero, Nat.mod_eq_of_lt hcur]
    by_cases hM : i ∈ (List.range k).map
        (fun j => ((rotateAPIKey t s).1.currentKeyIndex + j)
          % (rotateAPIKey t s).1.apiKeys.length)
    · rw [if_pos hM, if_pos (hcond.mpr (Or.inr hM))]
    · rw [if_neg hM, hresets1]
      by_cases hic : s.currentKeyIndex = i
      · rw [if_pos hic, if_pos (hcond.mpr (Or.inl hic.symm))]
        obtain ⟨o, ho⟩ : ∃ o, s.rateLimitResetTimes.get? i = some o := by
          rw [List.get?_eq_get (by rw [hresets]; exact hic ▸ hcur)]
          exact ⟨_, rfl⟩
        rw [ho]
        rfl
      · rw [if_neg hic,
          if_neg (fun hc => (hcond.mp hc).elim (fun h => hic h.symm) hM)]

theorem roundRobin_cover (c N i : Nat) (hpos : 0 < N) (hi : i < N) :
    i ∈ (List.range N).map (fun j => (c + j) % N) := by
  refine List.mem_map.mpr
    ⟨(N + i - c % N) % N, List.mem_range.mpr (Nat.mod_lt _ hpos), ?_⟩
  rw [Nat.add_mod_mod]
  rw [show c + (N + i - c % N) = c - c % N + (N + i) by
    have h1 := Nat.mod_le c N
    have h2 := Nat.mod_lt c hpos
    omega]
  rw [show c - c % N = N * (c / N) by
    have := (Nat.div_add_mod c N).symm
    omega]
  rw [Nat.add_comm (N * (c / N)) (N + i), Nat.add_mul_mod_self_left,
    Nat.add_mod_left]
  exact Nat.mod_eq_of_lt hi

theorem roundRobin_inj (c N i j : Nat) (hi : i < N) (hj : j < N)
    (h : (c + i) % N = (c + j) % N) : i = j := by
  have h2 : i ≡ j [MOD N] := Nat.ModEq.add_left_cancel rfl h
  rwa [Nat.ModEq, Nat.mod_eq_of_lt hi, Nat.mod_eq_of_lt hj] at h2

theorem getD_eq_get? (l : List α) (n : Nat) (d : α) :
    l.getD n d = (l.get? n).getD d := by
  rw [List.getD_eq_getElem?_getD, List.get?_eq_getElem?]

/-- When the cooldown entry of every credential is a common timestamp `T`, the
scan of `findAvailableKey` selects nothing while `now ≤ T` and selects a
credential again as soon as `T < now` — the line 82 test is the strict
comparison `now > resetTime`. -/
theorem findAvailableKey_all_cooling (s' : ServiceState) (now T : Nat)
    (hWF : WF s') (hT : T ≠ 0)
    (hall : ∀ i, i < s'.apiKeys.length →
      s'.rateLimitResetTimes.get? i = some (some T)) :
    (now ≤ T → findAvailableKey now s' = (s', false)) ∧
    (T < now → (findAvailableKey now s').2 = true) := by
  constructor
  · intro hnow
    have hfind : (List.range s'.apiKeys.length).find?
        (fun i => keyEligible s'.rateLimitResetTimes now
          ((s'.currentKeyIndex + i) % s'.apiKeys.length)) = none := by
      rw [List.find?_eq_none]
      intro x _
      have hidx : (s'.currentKeyIndex + x) % s'.apiKeys.length
          < s'.apiKeys.length := Nat.mod_lt _ hWF.1
      have hgd : s'.rateLimitResetTimes.getD
          ((s'.currentKeyIndex + x) % s'.apiKeys.length) none = some T := by
        rw [getD_eq_get?, hall _ hidx]
        rfl
      intro hp
      unfold keyEligible at hp
      rw [hgd] at hp
      simp at hp
      rcases hp with hp | hp
      · exact hT hp
      · omega
    unfold findAvailableKey
    rw [hfind]
  · intro hnow
    have hcur : s'.currentKeyIndex < s'.apiKeys.length := hWF.2.2.2
    have hp0 : keyEligible s'.rateLimitResetTimes now
        ((s'.currentKeyIndex + 0) % s'.apiKeys.length) = true := by
      rw [Nat.add_zero, Nat.mod_eq_of_lt hcur]
      unfold keyEligible
      have hgd : s'.rateLimitResetTimes.getD s'.currentKeyIndex none
          = some T := by
        rw [getD_eq_get?, hall _ hcur]
        rfl
      rw [hgd]
      simp [hnow]
    obtain ⟨m, hm⟩ : ∃ m, s'.apiKeys.length = m + 1 := by
      have := hWF.1
      exact ⟨s'.apiKeys.length - 1, by omega⟩
    have hp0m : keyEligible s'.rateLimitResetTimes now
        ((s'.currentKeyIndex + 0) % (m + 1)) = true := by
      rw [← hm]
      exact hp0
    have hfind : (List.range s'.apiKeys.length).find?
        (fun i => keyEligible s'.rateLimitResetTimes now
          ((s'.currentKeyIndex + i) % s'.apiKeys.length)) = some 0 := by
      rw [hm, List.range_succ_eq_map]
      exact List.find?_cons_of_pos _ hp0m
    unfold findAvailableKey
    rw [hfind]

/-! Claim C8 (round-robin marking and cooldown exclusion). -/

/-- C8: over any well-formed pool of `N` credentials and simulated clock
`t`, (1) each `markRateLimited` call (`rotateAPIKey`) advances the current
index by one mod `N`; (2) the first `N` marked indices
`(current + j) mod N`, `j < N`, are pairwise distinct, so all `N` indices
are visited before any repeat; (3) after `N` consecutive calls every index
carries the cooldown timestamp `t + 60000`; (4) while the simulated clock
has not passed that timestamp, `findAvailableKey` (the spec operation
`findEligible`) selects none of the marked indices (it reports no eligible
credential and leaves the state unchanged); and (5) once the clock passes
the timestamp, selection succeeds again. -/
theorem c8_round_robin_cooldown (s : ServiceState) (t : Nat) (hWF : WF s) :
    (∀ k, (rotIter t k s).currentKeyIndex
        = (s.currentKeyIndex + k) % s.apiKeys.length) ∧
    (∀ i j, i < s.apiKeys.length → j < s.apiKeys.length →
      (s.currentKeyIndex + i) % s.apiKeys.length
        = (s.currentKeyIndex + j) % s.apiKeys.length → i = j) ∧
    (∀ i, i < s.apiKeys.length →
      (rotIter t s.apiKeys.length s).rateLimitResetTimes.get? i
        = some (some (t + 60000))) ∧
    (∀ now, now ≤ t + 60000 →
      findAvailableKey now (rotIter t s.apiKeys.length s)
        = (rotIter t s.apiKeys.length s, false)) ∧
    (∀ now, t + 60000 < now →
      (findAvailableKey now (rotIter t s.apiKeys.length s)).2 = true) := by
  have hmark : ∀ i, i < s.apiKeys.length →
      (rotIter t s.apiKeys.length s).rateLimitResetTimes.get? i
        = some (some (t + 60000)) := by
    intro i hi
    rw [rotIter_resets t s.apiKeys.length s hWF i,
      if_pos (roundRobin_cover s.currentKeyIndex s.apiKeys.length i hWF.1 hi)]
  have hWFN : WF (rotIter t s.apiKeys.length s) :=
    WF_rotIter t s.apiKeys.length s hWF
  have hkeys : (rotIter t s.apiKeys.length s).apiKeys = s.apiKeys :=
    rotIter_apiKeys t s.apiKeys.length s
  have hall : ∀ i, i < (rotIter t s.apiKeys.length s).apiKeys.length →
      (rotIter t s.apiKeys.length s).rateLimitResetTimes.get? i
        = some (some (t + 60000)) := by
    intro i hi
    exact hmark i (by rwa [hkeys] at hi)
  have hcool := findAvailableKey_all_cooling (rotIter t s.apiKeys.length s)
  refine ⟨fun k => rotIter_current t k s hWF,
    fun i j hi hj h =>
      roundRobin_inj s.currentKeyIndex s.apiKeys.length i j hi hj h,
    hmark, fun now hnow => ?_, fun now hnow => ?_⟩
  · exact ((hcool now (t + 60000) hWFN (by omega) hall).1) hnow
  · exact ((hcool now (t + 60000) hWFN (by omega) hall).2) hnow

/-- C8 witness: two rotations at clock 0 on a fresh two-credential pool
mark both indices with cooldown 60000; at clock 60000 nothing is eligible,
at clock 60001 selection succeeds. -/
theorem c8_round_robin_cooldown_witness :
    (rotIter 0 1 demoPool2).currentKeyIndex = 1 ∧
    (rotIter 0 2 demoPool2).rateLimitResetTimes.get? 0 = some (some 60000) ∧
    (rotIter 0 2 demoPool2).rateLimitResetTimes.get? 1 = some (some 60000) ∧
    findAvailableKey 60000 (rotIter 0 2 demoPool2)
      = (rotIter 0 2 demoPool2, false) ∧
    (findAvailableKey 60001 (rotIter 0 2 demoPool2)).2 = true := by
  obtain ⟨hcur, _, hmark, hexcl, hre⟩ :=
    c8_round_robin_cooldown demoPool2 0 (by decide)
  exact ⟨hcur 1, hmark 0 (by decide), hmark 1 (by decide),
    hexcl 60000 (by decide), hre 60001 (by decide)⟩


/-! Claim C9 (telemetry is masking). -/

theorem listStartsWith_length (sub l : List Char)
    (h : listStartsWith sub l = true) : sub.length ≤ l.length := by
  induction sub generalizing l with
  | nil => simp
  | cons c cs ih =>
    cases l with
    | nil => simp [listStartsWith] at h
    | cons d ds =>
      simp only [listStartsWith, Bool.and_eq_true] at h
      simpa using ih ds h.2

theorem listContainsSub_length (sub l : List Char)
    (h : listContainsSub sub l = true) : sub.length ≤ l.length := by
  induction l with
  | nil => exact listStartsWith_length sub [] h
  | cons d ds ih =>
    simp only [listContainsSub, Bool.or_eq_true] at h
    rcases h with h | h
    · exact listStartsWith_length _ _ h
    · exact (ih h).trans (by simp)

/-- C9: `getUsageStats` is a pure function of the pool state in this
embedding (it performs no mutation, and its result is a fresh value), and
it masks credentials: whenever every loaded credential is longer than 11
characters (the repository loader rejects keys shorter than 20), every
returned entry derives from the key at its index, its preview is exactly
the first `min 8 (length)` characters of that key followed by `...` — a
bounded-length prefix — and the preview never contains the full credential
value. -/
theorem c9_stats_masked (s : ServiceState)
    (hlen : ∀ k ∈ s.apiKeys, 11 < k.data.length) :
    ∀ entry ∈ getUsageStats s, ∃ i key,
      s.apiKeys.get? i = some key ∧
      entry.keyIndex = i ∧
      entry.keyPreview = jsSubstring0 key 8 ++ "..." ∧
      (jsSubstring0 key 8).data = key.data.take 8 ∧
      (jsSubstring0 key 8).data.length ≤ 8 ∧
      jsIncludes entry.keyPreview key = false := by
  intro entry hmem
  rw [getUsageStats, List.mem_map] at hmem
  obtain ⟨p, hp, hfe⟩ := hmem
  obtain ⟨i, key⟩ := p
  rw [List.mem_enum_iff_getElem?] at hp
  have hget : s.apiKeys.get? i = some key := by
    rw [List.get?_eq_getElem?]
    exact hp
  have hkey : 11 < key.data.length :=
    hlen key (List.get?_mem hget)
  subst hfe
  refine ⟨i, key, hget, rfl, rfl, rfl, ?_, ?_⟩
  · rw [show (jsSubstring0 key 8).data = key.data.take 8 from rfl,
      List.length_take]
    omega
  · cases hq : jsIncludes (jsSubstring0 key 8 ++ "...") key with
    | false => rfl
    | true =>
      exfalso
      have hle := listContainsSub_length key.data
        (jsSubstring0 key 8 ++ "...").data hq
      have hdata : (jsSubstring0 key 8 ++ "...").data
          = key.data.take 8 ++ "...".data := rfl
      rw [hdata, List.length_append, List.length_take] at hle
      have h3 : ("...".data).length = 3 := rfl
      omega

/-- C9 witness: the first telemetry entry of a fresh two-credential pool
has the masked preview of the 24-character first key. -/
theorem c9_stats_masked_witness :
    ∃ i key,
      demoPool2.apiKeys.get? i = some key ∧
      ({ keyIndex := 0, keyPreview := "demo-key...", isCurrent := true,
         requests := 0, errors := 0, lastUsed := none,
         rateLimitHits := 0 } : UsageStatsEntry).keyIndex = i ∧
      ({ keyIndex := 0, keyPreview := "demo-key...", isCurrent := true,
         requests := 0, errors := 0, lastUsed := none,
         rateLimitHits := 0 } : UsageStatsEntry).keyPreview = jsSubstring0 key 8 ++ "..." ∧
      (jsSubstring0 key 8).data = key.data.take 8 ∧
      (jsSubstring0 key 8).data.length ≤ 8 ∧
      jsIncludes
        ({ keyIndex := 0, keyPreview := "demo-key...", isCurrent := true,
           requests := 0, errors := 0, lastUsed := none,
           rateLimitHits := 0 } : UsageStatsEntry).keyPreview key = false :=
  c9_stats_masked demoPool2 (by decide)
    { keyIndex := 0, keyPreview := "demo-key...", isCurrent := true,
      requests := 0, errors := 0, lastUsed := none, rateLimitHits := 0 }
    (by decide)

end PII
